import Mathlib

/-!
# Verification of the local data-persistence layer

A shallow embedding, in Lean 4, of the local persistence layer of the
visual-ai-content-studio repository:

* `src/utils/localStorage.js` — the synchronous key-value store,
* `src/utils/indexedDB.js`    — the asynchronous document store,
* `src/utils/dataStorage.js`  — the storage façade.

Modelling conventions:

* JSON values are the inductive `JVal` (numbers are not needed by any
  claim and are omitted).  `JSON.stringify`/`JSON.parse` round-trip on
  JSON-representable values, so a localStorage cell is modelled as an
  `Option JVal`: `some v` is a stored string that parses to `v`, and
  `none` is a stored string that `JSON.parse` rejects.
* Browser timestamps (`new Date().toISOString()`) are passed in as
  explicit `String` arguments; `Date.now()` readings as explicit `Nat`
  arguments; `Math.random().toString(36).substr(2, 9)` suffixes as
  explicit `String` arguments.
* `try`/`catch` around fallible asynchronous operations is modelled by
  explicit failure flags (`DbFaults`) threaded through the façade.
* JavaScript truthiness on the values these functions actually test
  (strings, possibly-absent strings, JSON values) is modelled by the
  `jsTruthy*` functions.
* JS string comparison (`<` on strings; code-unit order) is `jsStrLt`,
  and `String.prototype.includes` is `jsIncludes`.
-/

set_option linter.unusedVariables false

/-- JSON values, as stored by the key-value layer (numbers omitted:
no claim involves a numeric payload). -/
inductive JVal where
  | jnull
  | jbool (b : Bool)
  | jstr (s : String)
  | jarr (elems : List JVal)
  | jobj (fields : List (String × JVal))

open JVal

/-- JavaScript truthiness of a `JVal` (`null`, `false` and `""` are
falsy; every array and object is truthy). -/
def jsTruthy : JVal → Bool
  | jnull => false
  | jbool b => b
  | jstr s => !(s == "")
  | jarr _ => true
  | jobj _ => true

/-- Truthiness of a possibly-absent string field (`undefined` and `""`
are falsy). -/
def jsTruthyOptStr : Option String → Bool
  | none => false
  | some s => !(s == "")

/-- JS `<` on strings: lexicographic code-unit comparison. -/
def charsLt : List Char → List Char → Bool
  | [], [] => false
  | [], _ :: _ => true
  | _ :: _, [] => false
  | a :: as, b :: bs => if a < b then true else if b < a then false else charsLt as bs

def jsStrLt (a b : String) : Bool := charsLt a.data b.data

/-- JS `<=` on strings (total order, so `a <= b` iff `¬ (b < a)`). -/
def jsStrLe (a b : String) : Bool := !(jsStrLt b a)

/-- `item[key] < cutoff` when `item[key]` may be `undefined`:
`undefined < s` evaluates to `false` in JS. -/
def jsLtOptStr : Option String → String → Bool
  | none, _ => false
  | some s, c => jsStrLt s c

/-! ## Key-Value Store (`localStorage.js`) -/

/-- The state of the browser `localStorage`: an availability flag (the
quota/disabled probe of `isLocalStorageAvailable`) plus the stored
entries.  A value `none` models a stored string that fails to
deserialize. -/
structure LocalState where
  available : Bool
  items : List (String × Option JVal)

/-- `localStorage.setItem`: replace the first entry with the key, else
append. -/
def setEntry (key : String) (v : Option JVal) : List (String × Option JVal) → List (String × Option JVal)
  | [] => [(key, v)]
  | (k, w) :: rest => if k == key then (key, v) :: rest else (k, w) :: setEntry key v rest

/-- `localStorage.removeItem`. -/
def removeEntry (key : String) (l : List (String × Option JVal)) : List (String × Option JVal) :=
  l.filter (fun e => !(e.1 == key))

/-- `STORAGE_KEYS` of `localStorage.js`. -/
def BRAND_KIT : String := "visualai_brand_kit"
def USER_INFO : String := "visualai_user_info"
def CAMPAIGN_VARIABLE : String := "visualai_campaign_variable"
def APP_PREFERENCES : String := "visualai_app_preferences"
def RECENT_PROMPTS : String := "visualai_recent_prompts"

/-- `getStorageItem(key, defaultValue)`: the default when the mechanism
is unavailable or the key is absent, the parsed value when the stored
string deserializes, and the default (via `catch`) when it does not.
Total in Lean, so it never throws by construction. -/
def getStorageItem (st : LocalState) (key : String) (defaultValue : JVal) : JVal :=
  if !st.available then defaultValue
  else
    match st.items.lookup key with
    | none => defaultValue
    | some none => defaultValue
    | some (some v) => v

/-- `setStorageItem(key, value)`: returns success and the new state. -/
def setStorageItem (st : LocalState) (key : String) (value : JVal) : Bool × LocalState :=
  if !st.available then (false, st)
  else (true, { st with items := setEntry key (some value) st.items })

/-- `removeStorageItem(key)`. -/
def removeStorageItem (st : LocalState) (key : String) : Bool × LocalState :=
  if !st.available then (false, st)
  else (true, { st with items := removeEntry key st.items })

/-- `clearAllStorageData()`: removes every `STORAGE_KEYS` entry. -/
def clearAllStorageData (st : LocalState) : Bool × LocalState :=
  if !st.available then (false, st)
  else
    let cleared := removeEntry RECENT_PROMPTS (removeEntry APP_PREFERENCES
      (removeEntry CAMPAIGN_VARIABLE (removeEntry USER_INFO (removeEntry BRAND_KIT st.items))))
    (true, { st with items := cleared })

/-- The documented default brand kit shape. -/
def brandKitDefault : JVal :=
  jobj [("colors", jarr [jstr "#000000", jstr "#ffffff", jstr "#cccccc"]),
        ("typography", jstr ""),
        ("styleKeywords", jarr [])]

/-- The documented default user-info shape. -/
def userInfoDefault : JVal :=
  jobj [("companyName", jstr ""), ("primaryPlatform", jstr ""),
        ("socialHandle", jstr ""), ("missionBio", jstr "")]

/-- The documented default app-preferences shape. -/
def appPreferencesDefault : JVal :=
  jobj [("theme", jstr "light"), ("autoSave", jbool true),
        ("notifications", jbool true),
        ("defaultPlatforms", jarr [jstr "instagram", jstr "tiktok"])]

def brandKit.get (st : LocalState) : JVal := getStorageItem st BRAND_KIT brandKitDefault

def brandKit.set (st : LocalState) (brandKitData : JVal) : Bool × LocalState :=
  setStorageItem st BRAND_KIT brandKitData

def userInfo.get (st : LocalState) : JVal := getStorageItem st USER_INFO userInfoDefault

def userInfo.set (st : LocalState) (userInfoData : JVal) : Bool × LocalState :=
  setStorageItem st USER_INFO userInfoData

def campaignVariable.get (st : LocalState) : JVal := getStorageItem st CAMPAIGN_VARIABLE (jstr "")

def campaignVariable.set (st : LocalState) (campaignData : JVal) : Bool × LocalState :=
  setStorageItem st CAMPAIGN_VARIABLE campaignData

def appPreferences.get (st : LocalState) : JVal := getStorageItem st APP_PREFERENCES appPreferencesDefault

def appPreferences.set (st : LocalState) (preferences : JVal) : Bool × LocalState :=
  setStorageItem st APP_PREFERENCES preferences

def recentPrompts.get (st : LocalState) : JVal := getStorageItem st RECENT_PROMPTS (jarr [])

/-- Does an object value carry the named field? -/
def hasField (v : JVal) (name : String) : Bool :=
  match v with
  | jobj fields => (fields.lookup name).isSome
  | _ => false

/-! ## Document Store (`indexedDB.js`)

A collection with `keyPath: 'id'` is a list of records with
pairwise-distinct `id`s; `put` replaces the record with the same key or
inserts a new one.  Records reach a collection only through `setItem`,
which always assigns `id`, `createdAt` and `updatedAt`, but the browser
database may also hold legacy records, so the stored `createdAt`,
`updatedAt` and `prompt` stay optional in the model.  IndexedDB itself
guarantees a stored record has a primary key, hence `id : String`. -/

/-- A record stored in a collection. `payload` stands for the fields
(url, platform, metadata, ...) the persistence layer never inspects. -/
structure DocRec where
  id : String
  createdAt : Option String
  updatedAt : Option String
  prompt : Option String
  type : Option String
  payload : Nat
  deriving DecidableEq, Repr

/-- A record as passed by a caller to `setItem`/`images.save`, before
the ids and timestamps are normalized. -/
structure PutItem where
  id : Option String
  createdAt : Option String
  prompt : Option String
  type : Option String
  payload : Nat
  deriving DecidableEq, Repr

/-- `store.put(item)` on a `keyPath: 'id'` object store: replace the
record carrying the same key, else insert.  (The model keeps records
in insertion order; every claim reads a collection through `getItem`,
a filter, or an explicit sort, so only the key-to-record map matters.) -/
def putRec : List DocRec → DocRec → List DocRec
  | [], r => [r]
  | x :: xs, r => if x.id == r.id then r :: xs else x :: putRec xs r

/-- `generateId()`: `` `${Date.now()}-${Math.random().toString(36).substr(2, 9)}` ``.
The `Date.now()` reading and the random base-36 suffix are explicit
arguments. -/
def generateId (nowMs : Nat) (suffix : String) : String :=
  Nat.repr nowMs ++ "-" ++ suffix

/-- `setItem(storeName, item)`: backfill a falsy `id` with a freshly
generated one, backfill a falsy `createdAt` with the current time,
always refresh `updatedAt`, then `put` with replace semantics.  `now`
is the `new Date().toISOString()` reading and `genId` the id
`generateId()` would produce at this call. -/
def setItem (now : String) (genId : String) (item : PutItem) (store : List DocRec) :
    String × List DocRec :=
  let id := match item.id with
    | none => genId
    | some s => if s == "" then genId else s
  let createdAt := match item.createdAt with
    | none => now
    | some s => if s == "" then now else s
  let r : DocRec :=
    { id := id, createdAt := some createdAt, updatedAt := some now,
      prompt := item.prompt, type := item.type, payload := item.payload }
  (id, putRec store r)

/-- `getItem(storeName, id)`: the record with the key, or null. -/
def getItem (store : List DocRec) (id : String) : Option DocRec :=
  store.find? (fun r => r.id == id)

/-- `deleteItem(storeName, id)`. -/
def deleteItem (store : List DocRec) (id : String) : List DocRec :=
  store.filter (fun r => !(r.id == id))

/-- The ascending `createdAt`-index order used by
`getAllItems(..., {orderBy: 'createdAt'})`; records are compared by
their index key. -/
def createdLe (a b : DocRec) : Prop :=
  jsStrLe (a.createdAt.getD "") (b.createdAt.getD "") = true

instance : DecidableRel createdLe := fun a b => by
  unfold createdLe; infer_instance

/-- The descending comparator of `images.getRecent`:
`(a, b) => new Date(b.createdAt) - new Date(a.createdAt)` (on the
ISO-8601 strings the code writes, date order and code-unit string order
agree). -/
def createdGe (a b : DocRec) : Prop :=
  jsStrLe (b.createdAt.getD "") (a.createdAt.getD "") = true

instance : DecidableRel createdGe := fun a b => by
  unfold createdGe; infer_instance

/-- `getAllItems(storeName, {orderBy: 'createdAt', limit})` when the
index exists: `index.getAll()` returns the records whose index key
path yields a key (a record with no `createdAt` is absent from the
index), in ascending key order; then `limit` (when truthy and
positive) slices the front. -/
def getAllItemsByCreatedAt (store : List DocRec) (limit : Nat) : List DocRec :=
  let results := List.insertionSort createdLe (store.filter (fun r => r.createdAt.isSome))
  if limit > 0 then results.take limit else results

/-- `images.save(imageData)`: default the id and `createdAt`, stamp
`type: 'image'`, then `setItem`. -/
def images.save (now : String) (genId : String) (imageData : PutItem) (store : List DocRec) :
    String × List DocRec :=
  let data : PutItem :=
    { imageData with
      id := some (match imageData.id with
        | none => genId
        | some s => if s == "" then genId else s),
      type := some "image",
      createdAt := some (match imageData.createdAt with
        | none => now
        | some s => if s == "" then now else s) }
  setItem now genId data store

def images.get (store : List DocRec) (id : String) : Option DocRec := getItem store id

/-- `images.getRecent(limit)`: fetch with `orderBy: 'createdAt'` and
`limit`, then sort the fetched slice newest-first. -/
def images.getRecent (limit : Nat) (store : List DocRec) : List DocRec :=
  List.insertionSort createdGe (getAllItemsByCreatedAt store limit)

/-- `String.prototype.toLowerCase` (ASCII range, which covers every
string the claims touch). -/
def jsToLower (s : String) : String := ⟨s.data.map Char.toLower⟩

/-- Substring test: does `needle` start `hay`? -/
def leadMatch : List Char → List Char → Bool
  | [], _ => true
  | _ :: _, [] => false
  | n :: ns, h :: hs => n == h && leadMatch ns hs

/-- `hay.includes(needle)` on code units. -/
def hasSub (needle hay : List Char) : Bool :=
  match hay with
  | [] => leadMatch needle []
  | _ :: hs => leadMatch needle hay || hasSub needle hs

def jsIncludes (hay needle : String) : Bool := hasSub needle.data hay.data

/-- `images.search(searchText)`: full scan keeping records whose
`prompt` is truthy and contains the text case-insensitively. -/
def images.search (searchText : String) (store : List DocRec) : List DocRec :=
  store.filter (fun img =>
    match img.prompt with
    | none => false
    | some p => if p == "" then false else jsIncludes (jsToLower p) (jsToLower searchText))

def images.delete (store : List DocRec) (id : String) : List DocRec := deleteItem store id

/-- `cleanupOldData(daysOld)`: scan the snapshot of the images
collection and delete every record whose `createdAt` compares
`< cutoffISO` (raw JS string comparison; an absent `createdAt` compares
false).  `cutoffISO` is the ISO string of `now - daysOld` days.
Returns the deletion count and the resulting collection. -/
def cleanupOldData (cutoffISO : String) (store : List DocRec) : Nat × List DocRec :=
  store.foldl
    (fun acc image =>
      if jsLtOptStr image.createdAt cutoffISO then
        (acc.1 + 1, images.delete acc.2 image.id)
      else acc)
    (0, store)

/-! ## Storage Façade (`dataStorage.js`)

`initializeStorage` only opens the lazily-shared connection and probes
availability; it is a no-op on the modelled state.  The asynchronous
document-store operations can reject; which ones do is recorded in a
`DbFaults` environment, and a rejection inside a `try` transfers
control to the matching `catch` exactly as in the source. -/

/-- The façade-visible state: the key-value store plus the three
document collections. -/
structure StorageState where
  localStorage : LocalState
  images : List DocRec
  layouts : List DocRec
  projects : List DocRec

/-- Which underlying document-store operations reject when awaited. -/
structure DbFaults where
  imagesClearFails : Bool
  layoutsClearFails : Bool
  projectsClearFails : Bool
  imageSaveFails : Bool

/-- `saveGeneratedImage(imageData)`: delegates to `images.save`; a
rejection is caught and surfaces as `null` (`none`), leaving the
collection as the failed operation left it (a rejected put writes
nothing). -/
def saveGeneratedImage (faults : DbFaults) (now : String) (genId : String)
    (imageData : PutItem) (st : StorageState) : Option String × StorageState :=
  if faults.imageSaveFails then (none, st)
  else
    let (id, imgs) := images.save now genId imageData st.images
    (some id, { st with images := imgs })

/-- `getRecentImages(limit)`: façade delegation to `images.getRecent`. -/
def getRecentImages (limit : Nat) (st : StorageState) : List DocRec :=
  images.getRecent limit st.images

/-- `searchImages(searchText)`: façade delegation to `images.search`. -/
def searchImages (searchText : String) (st : StorageState) : List DocRec :=
  images.search searchText st.images

/-- `loadGeneratedImage(imageId)`. -/
def loadGeneratedImage (imageId : String) (st : StorageState) : Option DocRec :=
  images.get st.images imageId

/-- The object `localStorage.exportAllData()` returns. -/
structure LocalExport where
  brandKit : JVal
  userInfo : JVal
  campaignVariable : JVal
  appPreferences : JVal
  recentPrompts : JVal
  exportedAt : String

/-- `exportAllData()` of `localStorage.js`: reads every category
through its getter (so defaults apply to absent or corrupt keys). -/
def exportAllData (now : String) (ls : LocalState) : LocalExport :=
  { brandKit := brandKit.get ls
    userInfo := userInfo.get ls
    campaignVariable := campaignVariable.get ls
    appPreferences := appPreferences.get ls
    recentPrompts := recentPrompts.get ls
    exportedAt := now }

/-- `importAllData(data)` of `localStorage.js`: writes back every
truthy category; nothing in the body can throw, so it returns `true`. -/
def importAllData (data : LocalExport) (ls : LocalState) : Bool × LocalState :=
  let ls1 := if jsTruthy data.brandKit then (brandKit.set ls data.brandKit).2 else ls
  let ls2 := if jsTruthy data.userInfo then (userInfo.set ls1 data.userInfo).2 else ls1
  let ls3 := if jsTruthy data.campaignVariable then
    (campaignVariable.set ls2 data.campaignVariable).2 else ls2
  let ls4 := if jsTruthy data.appPreferences then
    (appPreferences.set ls3 data.appPreferences).2 else ls3
  let ls5 := if jsTruthy data.recentPrompts then
    (setStorageItem ls4 RECENT_PROMPTS data.recentPrompts).2 else ls4
  (true, ls5)

/-- The export object assembled by `exportAllUserData()`: the spread of
the key-value export, the recent images, and export metadata
(`databaseInfo` is diagnostic only and carried as the store sizes). -/
structure Snapshot where
  settings : LocalExport
  images : List DocRec
  exportedAt : String
  version : String
  storageMode : String
  databaseInfoCounts : Nat × Nat × Nat

/-- `exportAllUserData()`: key-value export, plus up to 100 most-recent
images, plus metadata.  A pure read of the state. -/
def exportAllUserData (now : String) (st : StorageState) : Snapshot :=
  { settings := exportAllData now st.localStorage
    images := getRecentImages 100 st
    exportedAt := now
    version := "1.0.0"
    storageMode := "local-only"
    databaseInfoCounts := (st.images.length, st.layouts.length, st.projects.length) }

/-- One record of the snapshot, as re-submitted to
`saveGeneratedImage` by the import loop. -/
def docRecToPutItem (r : DocRec) : PutItem :=
  { id := some r.id, createdAt := r.createdAt, prompt := r.prompt,
    type := r.type, payload := r.payload }

/-- One iteration of the image-import loop of `importUserData`: feed
the next record to `saveGeneratedImage`, consuming one id from the
generated-id supply (the id is used only when the record has no truthy
id of its own). -/
def importStep (faults : DbFaults) (now : String)
    (acc : StorageState × List String) (imageData : DocRec) : StorageState × List String :=
  let (g, rest) := match acc.2 with
    | [] => ("", ([] : List String))
    | g :: r => (g, r)
  let (_, st') := saveGeneratedImage faults now g (docRecToPutItem imageData) acc.1
  (st', rest)

/-- `importUserData(data)`: import the key-value categories, then loop
`saveGeneratedImage` over `data.images`, and return only the key-value
import's result — image-save failures are swallowed inside
`saveGeneratedImage`. -/
def importUserData (faults : DbFaults) (now : String) (gens : List String)
    (data : Snapshot) (st : StorageState) : Bool × StorageState :=
  let (localImportSuccess, ls) := importAllData data.settings st.localStorage
  let st0 : StorageState := { st with localStorage := ls }
  (localImportSuccess, (data.images.foldl (importStep faults now) (st0, gens)).1)

/-- `clearAllUserData()`: clear the key-value keys, then await the
clear of `images`, `layouts` and `projects` in that order inside one
`try`; the first rejection jumps to the `catch`, which returns `false`
and skips the remaining clears.  On the fault-free path the returned
boolean is the key-value clear's result. -/
def clearAllUserData (faults : DbFaults) (st : StorageState) : Bool × StorageState :=
  let (localCleared, ls) := clearAllStorageData st.localStorage
  if faults.imagesClearFails then (false, { st with localStorage := ls })
  else
    let st1 : StorageState := { st with localStorage := ls, images := [] }
    if faults.layoutsClearFails then (false, st1)
    else
      let st2 : StorageState := { st1 with layouts := [] }
      if faults.projectsClearFails then (false, st2)
      else (localCleared, { st2 with projects := [] })

/-- `performMaintenance({daysOld})`: delegates to `cleanupOldData` and
reports the deletion count. -/
def performMaintenance (cutoffISO : String) (st : StorageState) : Nat × StorageState :=
  let (deletedCount, imgs) := cleanupOldData cutoffISO st.images
  (deletedCount, { st with images := imgs })

/-! ## Scenario compositions and proof-side definitions -/

/-- The P5 scenario `exportAll(); clearAll(); importAll(snapshot)`,
returning the final state. -/
def exportClearImportRun (faults : DbFaults) (tExp tImp : String) (gens : List String)
    (st : StorageState) : StorageState :=
  (importUserData faults tImp gens (exportAllUserData tExp st) (clearAllUserData faults st).2).2

/-- The images component of the import loop, written as plain
recursion (proved equal to the `foldl` of `importUserData` on the
fault-free path). -/
def saveLoop (now : String) : List DocRec → List DocRec → List String → List DocRec
  | [], imgs, _ => imgs
  | r :: rs, imgs, gens =>
    let g := match gens with
      | [] => ""
      | g :: _ => g
    let rest := match gens with
      | [] => ([] : List String)
      | _ :: t => t
    saveLoop now rs (images.save now g (docRecToPutItem r) imgs).2 rest

/-- Reference rendering of a natural number in decimal, most
significant digit first; proved equal to the characters of
`Nat.repr`. -/
def natChars (n : Nat) : List Char :=
  if h : n < 10 then [Nat.digitChar n]
  else natChars (n / 10) ++ [Nat.digitChar (n % 10)]
decreasing_by
  exact Nat.div_lt_self (by omega) (by omega)

/-- A base-36 random suffix never contains the `'-'` separator. -/
def noDash (s : String) : Bool := s.data.all (fun c => !(c == '-'))

/-! ### Concrete fixtures used by counterexamples and witnesses -/

/-- An image record as the save path writes it: equal `createdAt` and
`updatedAt` stamps, `type: 'image'`. -/
def mkImg (id createdAt : String) (prompt : Option String) (payload : Nat) : DocRec :=
  ⟨id, some createdAt, some createdAt, prompt, some "image", payload⟩

/-- Eight records with pairwise-distinct ascending `createdAt` stamps
(January 1st through 8th), stored in primary-key order. -/
def c1Store : List DocRec :=
  [mkImg "a1" "2024-01-01T00:00:00.000Z" none 1,
   mkImg "a2" "2024-01-02T00:00:00.000Z" none 2,
   mkImg "a3" "2024-01-03T00:00:00.000Z" none 3,
   mkImg "a4" "2024-01-04T00:00:00.000Z" none 4,
   mkImg "a5" "2024-01-05T00:00:00.000Z" none 5,
   mkImg "a6" "2024-01-06T00:00:00.000Z" none 6,
   mkImg "a7" "2024-01-07T00:00:00.000Z" none 7,
   mkImg "a8" "2024-01-08T00:00:00.000Z" none 8]

/-- A record whose `createdAt` is the empty string — present but not
parseable as a timestamp (`new Date("")` is an Invalid Date). -/
def c2CounterRec : DocRec := ⟨"x1", some "", none, none, some "image", 0⟩

/-- The cutoff `cleanupOldData(7)` computes when "now" is
2026-10-11T00:00:00.000Z. -/
def c2Cutoff : String := "2026-10-04T00:00:00.000Z"

/-- Records aged 0, 6, 7, 8 and 30 days relative to
2026-10-11T00:00:00.000Z. -/
def c2Store : List DocRec :=
  [mkImg "d0" "2026-10-11T00:00:00.000Z" none 0,
   mkImg "d6" "2026-10-05T00:00:00.000Z" none 6,
   mkImg "d7" "2026-10-04T00:00:00.000Z" none 7,
   mkImg "d8" "2026-10-03T00:00:00.000Z" none 8,
   mkImg "d30" "2026-09-11T00:00:00.000Z" none 30]

/-- A localStorage state whose brand-kit key holds a partially-written
record: only `colors` was persisted. -/
def c3State : LocalState :=
  ⟨true, [(BRAND_KIT, some (jobj [("colors", jarr [jstr "#111111"])]))]⟩

/-- An update payload that carries an id but no `createdAt` (the
caller did not read the record back before writing). -/
def c4Item : PutItem := ⟨some "a", none, none, none, 0⟩

def c4T1 : String := "2024-01-01T00:00:00.000Z"

def c4T2 : String := "2024-01-02T00:00:00.000Z"

/-- No document-store operation rejects. -/
def noFaults : DbFaults := ⟨false, false, false, false⟩

/-- Only the clear of the images collection rejects. -/
def c5Faults : DbFaults := ⟨true, false, false, false⟩

def c5Layout : DocRec := ⟨"L1", none, none, none, some "layout", 0⟩

/-- A state in which each document collection holds one record. -/
def c5State : StorageState :=
  ⟨⟨true, []⟩, [mkImg "i1" "2024-01-01T00:00:00.000Z" none 1], [c5Layout],
   [⟨"P1", none, none, none, none, 0⟩]⟩

def c6Img : DocRec := mkImg "i1" "2024-01-01T00:00:00.000Z" (some "sunset") 7

/-- A state whose brand-kit key holds the JSON value `null` (falsy but
successfully deserialized) next to one stored image. -/
def c6State : StorageState :=
  ⟨⟨true, [(BRAND_KIT, some jnull)]⟩, [c6Img], [], []⟩

/-- A state with an ordinary truthy brand kit, used to witness the
amended round-trip theorem. -/
def c6GoodState : StorageState :=
  ⟨⟨true, [(BRAND_KIT, some (jobj [("colors", jarr [jstr "#111111"])]))]⟩, [c6Img], [], []⟩

def c6TExp : String := "2024-02-01T00:00:00.000Z"

def c6TImp : String := "2024-02-01T00:00:01.000Z"

/-- A put payload with no id at all. -/
def c8Item : PutItem := ⟨none, none, none, none, 0⟩

/-- A stored record whose `prompt` is present but empty. -/
def c9Rec : DocRec := ⟨"x1", some "2024-01-01T00:00:00.000Z", some "2024-01-01T00:00:00.000Z", some "", some "image", 0⟩

/-! ## Helper lemmas -/

theorem lookup_setEntry_self (k : String) (v : Option JVal) (l : List (String × Option JVal)) :
    (setEntry k v l).lookup k = some v := by
  induction l with
  | nil => simp [setEntry, List.lookup]
  | cons e rest ih =>
    obtain ⟨k', w⟩ := e
    by_cases h : k' = k
    · simp [setEntry, h, List.lookup]
    · have hb : (k' == k) = false := by simpa using h
      have hb' : (k == k') = false := by simpa using Ne.symm h
      simp [setEntry, hb, hb', List.lookup, ih]

theorem lookup_setEntry_other (k k' : String) (v : Option JVal) (l : List (String × Option JVal))
    (h : k' ≠ k) : (setEntry k v l).lookup k' = l.lookup k' := by
  induction l with
  | nil =>
    have hb : (k' == k) = false := by simpa using h
    simp [setEntry, List.lookup, hb]
  | cons e rest ih =>
    obtain ⟨k0, w⟩ := e
    by_cases h0 : k0 = k
    · subst h0
      have hb : (k' == k0) = false := by simpa using h
      simp [setEntry, List.lookup, hb]
    · have hb : (k0 == k) = false := by simpa using h0
      rcases hk : (k' == k0) with _ | _ <;>
        simp [setEntry, hb, List.lookup, hk, ih]

theorem lookup_removeEntry_self (k : String) (l : List (String × Option JVal)) :
    (removeEntry k l).lookup k = none := by
  induction l with
  | nil => simp [removeEntry, List.lookup]
  | cons e rest ih =>
    obtain ⟨k0, w⟩ := e
    by_cases h0 : k0 = k
    · simpa [removeEntry, h0] using ih
    · have hb : (k0 == k) = false := by simpa using h0
      have hb' : (k == k0) = false := by simpa using Ne.symm h0
      simpa [removeEntry, hb, hb', List.lookup] using ih

theorem lookup_removeEntry_other (k k' : String) (l : List (String × Option JVal))
    (h : k' ≠ k) : (removeEntry k l).lookup k' = l.lookup k' := by
  induction l with
  | nil => simp [removeEntry]
  | cons e rest ih =>
    obtain ⟨k0, w⟩ := e
    by_cases h0 : k0 = k
    · subst h0
      have hb : (k' == k0) = false := by simpa using h
      simpa [removeEntry, List.lookup, hb] using ih
    · have hb : (k0 == k) = false := by simpa using h0
      rcases hk : (k' == k0) with _ | _ <;>
        simp [removeEntry, hb, List.lookup, hk] <;>
        simpa [removeEntry] using ih

theorem getStorageItem_cases (st : LocalState) (key : String) (dflt : JVal) :
    getStorageItem st key dflt = dflt ∨
      (∃ v, st.available = true ∧ st.items.lookup key = some (some v) ∧
        getStorageItem st key dflt = v) := by
  unfold getStorageItem
  cases hA : st.available with
  | false => simp
  | true =>
    cases hL : st.items.lookup key with
    | none => simp [hL]
    | some w =>
      cases w with
      | none => simp [hL]
      | some v => exact Or.inr ⟨v, rfl, rfl, by simp⟩

/-! ## C7 -/

/-- C7: the Key-Value Store's `get(key, default)` (`getStorageItem`)
is total — it never throws — and returns the default whenever the
mechanism is unavailable, the key is absent, or the stored string
fails to deserialize; otherwise it returns the deserialized stored
value. -/
theorem C7_getStorageItem_default_contract (st : LocalState) (key : String) (dflt : JVal) :
    (st.available = false → getStorageItem st key dflt = dflt) ∧
    (st.items.lookup key = none → getStorageItem st key dflt = dflt) ∧
    (st.items.lookup key = some none → getStorageItem st key dflt = dflt) ∧
    (∀ v, st.available = true → st.items.lookup key = some (some v) →
      getStorageItem st key dflt = v) := by
  unfold getStorageItem
  refine ⟨fun h => by simp [h], fun h => ?_, fun h => ?_, fun v hA hL => by simp [hA, hL]⟩
  · cases hA : st.available <;> simp [h, hA]
  · cases hA : st.available <;> simp [h, hA]

/-- Witness for C7 at concrete states: unavailable mechanism, absent
key, corrupt value, and a successfully stored value. -/
theorem C7_witness :
    getStorageItem ⟨false, [("k", some (jstr "v"))]⟩ "k" jnull = jnull ∧
    getStorageItem ⟨true, []⟩ "k" jnull = jnull ∧
    getStorageItem ⟨true, [("k", none)]⟩ "k" jnull = jnull ∧
    getStorageItem ⟨true, [("k", some (jstr "v"))]⟩ "k" jnull = jstr "v" :=
  ⟨(C7_getStorageItem_default_contract ⟨false, [("k", some (jstr "v"))]⟩ "k" jnull).1 rfl,
   (C7_getStorageItem_default_contract ⟨true, []⟩ "k" jnull).2.1 rfl,
   (C7_getStorageItem_default_contract ⟨true, [("k", none)]⟩ "k" jnull).2.2.1 rfl,
   (C7_getStorageItem_default_contract ⟨true, [("k", some (jstr "v"))]⟩ "k" jnull).2.2.2
     (jstr "v") rfl rfl⟩

/-! ## C3 -/

/-- C3 counterexample: a partially-written brand kit (only `colors`
persisted) is returned by the load with its `typography` field absent,
although the documented default shape has that field — the load does
not backfill missing fields of a stored value. -/
theorem C3_counterexample :
    hasField (brandKit.get c3State) "typography" = false ∧
    hasField (brandKit.get c3State) "styleKeywords" = false ∧
    hasField brandKitDefault "typography" = true ∧
    hasField brandKitDefault "styleKeywords" = true :=
  ⟨rfl, rfl, rfl, rfl⟩

/-- C3 amended: a settings load returns the stored value verbatim when
the key holds a deserializable value (missing fields are not
backfilled); the fully-populated documented default is returned only
when the key is absent, the mechanism is unavailable, or
deserialization fails.  The defaults themselves carry every documented
field. -/
theorem C3_load_verbatim_or_full_default (st : LocalState) :
    (brandKit.get st = brandKitDefault ∨
      (∃ v, st.available = true ∧ st.items.lookup BRAND_KIT = some (some v) ∧
        brandKit.get st = v)) ∧
    (userInfo.get st = userInfoDefault ∨
      (∃ v, st.available = true ∧ st.items.lookup USER_INFO = some (some v) ∧
        userInfo.get st = v)) ∧
    (appPreferences.get st = appPreferencesDefault ∨
      (∃ v, st.available = true ∧ st.items.lookup APP_PREFERENCES = some (some v) ∧
        appPreferences.get st = v)) ∧
    (["colors", "typography", "styleKeywords"].all (hasField brandKitDefault) = true) ∧
    (["companyName", "primaryPlatform", "socialHandle", "missionBio"].all
      (hasField userInfoDefault) = true) ∧
    (["theme", "autoSave", "notifications", "defaultPlatforms"].all
      (hasField appPreferencesDefault) = true) :=
  ⟨getStorageItem_cases st BRAND_KIT brandKitDefault,
   getStorageItem_cases st USER_INFO userInfoDefault,
   getStorageItem_cases st APP_PREFERENCES appPreferencesDefault,
   rfl, rfl, rfl⟩

/-! ## C9 -/

/-- C9 counterexample: a record whose `prompt` field is present but
empty is never returned — even for the empty search text, which every
present prompt contains — because the code tests the prompt for JS
truthiness, not presence. -/
theorem C9_counterexample :
    images.search "" [c9Rec] = [] ∧ c9Rec.prompt = some "" :=
  ⟨rfl, rfl⟩

/-- C9 amended: `images.search(text)` returns exactly the records
whose `prompt` is present *and non-empty* and contains the text
case-insensitively; a record with an absent (or empty) prompt is never
returned, for any search text. -/
theorem C9_search_characterization (searchText : String) (store : List DocRec) (r : DocRec) :
    r ∈ images.search searchText store ↔
      r ∈ store ∧ ∃ p, r.prompt = some p ∧ p ≠ "" ∧
        jsIncludes (jsToLower p) (jsToLower searchText) = true := by
  unfold images.search
  rw [List.mem_filter]
  cases hp : r.prompt with
  | none => simp [hp]
  | some p =>
    by_cases hep : p = ""
    · simp [hp, hep]
    · have hb : (p == "") = false := by simpa using hep
      simp [hp, hb, hep]

/-! ## C10 -/

/-- C10: the boolean `importUserData` returns is exactly the outcome
of the key-value settings import (which cannot fail in the model, so
it is `true`), independent of the image-save fault flag — every failed
image save is swallowed by `saveGeneratedImage`. -/
theorem C10_import_result_ignores_image_failures (faults : DbFaults) (now : String)
    (gens : List String) (data : Snapshot) (st : StorageState) :
    (importUserData faults now gens data st).1 =
      (importAllData data.settings st.localStorage).1 ∧
    (importUserData faults now gens data st).1 = true :=
  ⟨rfl, rfl⟩

theorem getItem_putRec_self (store : List DocRec) (r : DocRec) :
    getItem (putRec store r) r.id = some r := by
  induction store with
  | nil => simp [putRec, getItem]
  | cons x xs ih =>
    rcases hx : (x.id == r.id) with _ | _
    · simp [putRec, getItem, hx] at ih ⊢
      exact ih
    · simp [putRec, getItem, hx]

theorem getItem_putRec_other (store : List DocRec) (r : DocRec) (a : String)
    (ha : a ≠ r.id) : getItem (putRec store r) a = getItem store a := by
  have hra : (r.id == a) = false := by simpa using (Ne.symm ha)
  induction store with
  | nil => simp [putRec, getItem, hra]
  | cons x xs ih =>
    rcases hx : (x.id == r.id) with _ | _
    · rcases hxa : (x.id == a) with _ | _ <;>
        simp [putRec, getItem, hx, hxa] at ih ⊢ <;> exact ih
    · have hxr : x.id = r.id := by simpa using hx
      simp [putRec, getItem, hx, hra, hxr]

/-! ## C4 -/

/-- C4 counterexample: `setItem` never reads the existing record back,
so a second put of the same id whose payload carries no `createdAt`
re-stamps `createdAt` with the time of the second write — `createdAt`
is not preserved across every sequence of puts of the same id. -/
theorem C4_counterexample :
    (getItem (setItem c4T1 "g1" c4Item []).2 "a").map DocRec.createdAt = some (some c4T1) ∧
    (getItem (setItem c4T2 "g2" c4Item (setItem c4T1 "g1" c4Item []).2).2 "a").map
      DocRec.createdAt = some (some c4T2) ∧
    c4T1 ≠ c4T2 :=
  ⟨rfl, rfl, by decide⟩

theorem setItem_truthy_fields (t g a c : String) (p ty : Option String) (n : Nat)
    (store : List DocRec) (ha : (a == "") = false) (hc : (c == "") = false) :
    setItem t g ⟨some a, some c, p, ty, n⟩ store =
      (a, putRec store ⟨a, some c, some t, p, ty, n⟩) := by
  simp [setItem, ha, hc]

theorem setItem_no_createdAt (t g a : String) (p ty : Option String) (n : Nat)
    (store : List DocRec) (ha : (a == "") = false) :
    setItem t g ⟨some a, none, p, ty, n⟩ store =
      (a, putRec store ⟨a, some t, some t, p, ty, n⟩) := by
  simp [setItem, ha]

theorem setItem_empty_createdAt (t g a : String) (p ty : Option String) (n : Nat)
    (store : List DocRec) (ha : (a == "") = false) :
    setItem t g ⟨some a, some "", p, ty, n⟩ store =
      (a, putRec store ⟨a, some t, some t, p, ty, n⟩) := by
  simp [setItem, ha]

/-- C4 amended: when the caller follows the read-modify-write pattern
— the second put passes the record read back from the store, so it
carries the stored `createdAt` — `createdAt` is preserved, `updatedAt`
is refreshed on every write, and `updatedAt` strictly increases
whenever the clock advanced between the writes.  (`t1 ≠ ""` because an
ISO timestamp is never empty; `a ≠ ""` because a truthy explicit id is
never empty.) -/
theorem C4_read_modify_write_preserves_createdAt (t1 t2 g1 g2 a : String) (item : PutItem)
    (store : List DocRec) (hid : item.id = some a) (ha : a ≠ "") (ht1 : t1 ≠ "") :
    ∃ r1 r2,
      getItem (setItem t1 g1 item store).2 a = some r1 ∧
      getItem (setItem t2 g2 (docRecToPutItem r1) (setItem t1 g1 item store).2).2 a = some r2 ∧
      r2.createdAt = r1.createdAt ∧
      r1.updatedAt = some t1 ∧
      r2.updatedAt = some t2 ∧
      (jsStrLt t1 t2 = true → ∃ u1 u2, r1.updatedAt = some u1 ∧ r2.updatedAt = some u2 ∧
        jsStrLt u1 u2 = true) := by
  obtain ⟨iid, ica, ip, ity, ipay⟩ := item
  simp only [PutItem.mk.injEq] at hid
  have hba : (a == "") = false := by simpa using ha
  have hbt1 : (t1 == "") = false := by simpa using ht1
  subst hid
  rcases ica with _ | s
  · refine ⟨⟨a, some t1, some t1, ip, ity, ipay⟩, ⟨a, some t1, some t2, ip, ity, ipay⟩,
      ?_, ?_, rfl, rfl, rfl, fun h => ⟨t1, t2, rfl, rfl, h⟩⟩
    · rw [setItem_no_createdAt t1 g1 a ip ity ipay store hba]
      exact getItem_putRec_self store ⟨a, some t1, some t1, ip, ity, ipay⟩
    · rw [setItem_no_createdAt t1 g1 a ip ity ipay store hba]
      show getItem (setItem t2 g2 ⟨some a, some t1, ip, ity, ipay⟩ _).2 a = _
      rw [setItem_truthy_fields t2 g2 a t1 ip ity ipay _ hba hbt1]
      exact getItem_putRec_self _ _
  · by_cases hs : s = ""
    · subst hs
      refine ⟨⟨a, some t1, some t1, ip, ity, ipay⟩, ⟨a, some t1, some t2, ip, ity, ipay⟩,
        ?_, ?_, rfl, rfl, rfl, fun h => ⟨t1, t2, rfl, rfl, h⟩⟩
      · rw [setItem_empty_createdAt t1 g1 a ip ity ipay store hba]
        exact getItem_putRec_self _ _
      · rw [setItem_empty_createdAt t1 g1 a ip ity ipay store hba]
        show getItem (setItem t2 g2 ⟨some a, some t1, ip, ity, ipay⟩ _).2 a = _
        rw [setItem_truthy_fields t2 g2 a t1 ip ity ipay _ hba hbt1]
        exact getItem_putRec_self _ _
    · have hbs : (s == "") = false := by simpa using hs
      refine ⟨⟨a, some s, some t1, ip, ity, ipay⟩, ⟨a, some s, some t2, ip, ity, ipay⟩,
        ?_, ?_, rfl, rfl, rfl, fun h => ⟨t1, t2, rfl, rfl, h⟩⟩
      · rw [setItem_truthy_fields t1 g1 a s ip ity ipay store hba hbs]
        exact getItem_putRec_self _ _
      · rw [setItem_truthy_fields t1 g1 a s ip ity ipay store hba hbs]
        show getItem (setItem t2 g2 ⟨some a, some s, ip, ity, ipay⟩ _).2 a = _
        rw [setItem_truthy_fields t2 g2 a s ip ity ipay _ hba hbs]
        exact getItem_putRec_self _ _

/-- Witness for C4 at a concrete two-put run. -/
theorem C4_witness :
    ∃ r1 r2,
      getItem (setItem c4T1 "g1" c4Item []).2 "a" = some r1 ∧
      getItem (setItem c4T2 "g2" (docRecToPutItem r1) (setItem c4T1 "g1" c4Item []).2).2 "a"
        = some r2 ∧
      r2.createdAt = r1.createdAt ∧
      r1.updatedAt = some c4T1 ∧
      r2.updatedAt = some c4T2 ∧
      (jsStrLt c4T1 c4T2 = true → ∃ u1 u2, r1.updatedAt = some u1 ∧ r2.updatedAt = some u2 ∧
        jsStrLt u1 u2 = true) :=
  C4_read_modify_write_preserves_createdAt c4T1 c4T2 "g1" "g2" "a" c4Item []
    rfl (by decide) (by decide)

/-! ## C5 -/

/-- C5 counterexample: when the clear of the images collection
rejects, the `catch` returns `false` without ever attempting the
layouts and projects clears — the layouts collection still holds its
record even though its own clear would have succeeded. -/
theorem C5_counterexample :
    (clearAllUserData c5Faults c5State).2.layouts = [c5Layout] ∧
    (clearAllUserData c5Faults c5State).2.projects = [⟨"P1", none, none, none, none, 0⟩] ∧
    c5Faults.layoutsClearFails = false ∧
    c5Faults.projectsClearFails = false ∧
    (clearAllUserData c5Faults c5State).1 = false :=
  ⟨rfl, rfl, rfl, rfl, rfl⟩

/-- C5 amended: `clearAllUserData` returns `true` exactly when the
key-value clear and all three document-store clears succeed (an
aggregate result), but it stops at the first document-store failure:
on an images-clear failure the layouts and projects collections are
left untouched rather than attempted. -/
theorem C5_clearAll_aggregate_but_stops_early (faults : DbFaults) (st : StorageState) :
    ((clearAllUserData faults st).1 = true ↔
      st.localStorage.available = true ∧ faults.imagesClearFails = false ∧
      faults.layoutsClearFails = false ∧ faults.projectsClearFails = false) ∧
    (faults.imagesClearFails = false → faults.layoutsClearFails = false →
      faults.projectsClearFails = false →
      (clearAllUserData faults st).2.images = [] ∧
      (clearAllUserData faults st).2.layouts = [] ∧
      (clearAllUserData faults st).2.projects = [] ∧
      (clearAllUserData faults st).2.localStorage = (clearAllStorageData st.localStorage).2) ∧
    (faults.imagesClearFails = true →
      (clearAllUserData faults st).2.images = st.images ∧
      (clearAllUserData faults st).2.layouts = st.layouts ∧
      (clearAllUserData faults st).2.projects = st.projects) := by
  obtain ⟨fi, fl, fp, fs⟩ := faults
  cases fi <;> cases fl <;> cases fp <;>
    cases hA : st.localStorage.available <;>
    simp [clearAllUserData, clearAllStorageData, hA]

/-- Witness for C5 on the fault-free path at a concrete state. -/
theorem C5_witness :
    ((clearAllUserData noFaults c5State).1 = true ↔
      c5State.localStorage.available = true ∧ noFaults.imagesClearFails = false ∧
      noFaults.layoutsClearFails = false ∧ noFaults.projectsClearFails = false) ∧
    ((clearAllUserData noFaults c5State).2.images = [] ∧
      (clearAllUserData noFaults c5State).2.layouts = [] ∧
      (clearAllUserData noFaults c5State).2.projects = [] ∧
      (clearAllUserData noFaults c5State).2.localStorage =
        (clearAllStorageData c5State.localStorage).2) :=
  ⟨(C5_clearAll_aggregate_but_stops_early noFaults c5State).1,
   (C5_clearAll_aggregate_but_stops_early noFaults c5State).2.1 rfl rfl rfl⟩

/-! ## C2 -/

theorem cleanup_count_aux (cutoff : String) :
    ∀ (l : List DocRec) (c : Nat) (s : List DocRec),
      (List.foldl (fun acc image =>
          if jsLtOptStr image.createdAt cutoff then (acc.1 + 1, images.delete acc.2 image.id)
          else acc) (c, s) l).1
        = c + l.countP (fun r => jsLtOptStr r.createdAt cutoff)
  | [], c, s => by simp
  | r :: rs, c, s => by
    by_cases h : jsLtOptStr r.createdAt cutoff = true
    · simp only [List.foldl_cons, h, if_true, List.countP_cons]
      rw [cleanup_count_aux cutoff rs (c + 1) (images.delete s r.id)]
      omega
    · have hb : jsLtOptStr r.createdAt cutoff = false := by simpa using h
      simp only [List.foldl_cons, hb, Bool.false_eq_true, if_false, List.countP_cons]
      rw [cleanup_count_aux cutoff rs c s]
      simp [hb]

theorem cleanup_store_aux (cutoff : String) :
    ∀ (l : List DocRec) (c : Nat) (s : List DocRec),
      (List.foldl (fun acc image =>
          if jsLtOptStr image.createdAt cutoff then (acc.1 + 1, images.delete acc.2 image.id)
          else acc) (c, s) l).2
        = s.filter (fun x =>
            !(l.any (fun r => jsLtOptStr r.createdAt cutoff && x.id == r.id)))
  | [], c, s => by simp
  | r :: rs, c, s => by
    by_cases h : jsLtOptStr r.createdAt cutoff = true
    · simp only [List.foldl_cons, h, if_true]
      rw [cleanup_store_aux cutoff rs (c + 1) (images.delete s r.id)]
      show (List.filter _ (List.filter _ s)) = _
      rw [List.filter_filter]
      apply List.filter_congr
      intro x _
      simp [h, Bool.and_comm]
    · have hb : jsLtOptStr r.createdAt cutoff = false := by simpa using h
      simp only [List.foldl_cons, hb, Bool.false_eq_true, if_false]
      rw [cleanup_store_aux cutoff rs c s]
      apply List.filter_congr
      intro x _
      simp [hb]

/-- C2 counterexample: a record whose `createdAt` is `""` — present
but not parseable as any timestamp — is deleted by the cleanup,
because the empty string compares `<` to every non-empty cutoff under
JS string comparison; the claim requires such records to be treated as
"not old enough". -/
theorem C2_counterexample :
    (cleanupOldData c2Cutoff [c2CounterRec]).1 = 1 ∧
    (cleanupOldData c2Cutoff [c2CounterRec]).2 = [] ∧
    c2CounterRec.createdAt = some "" :=
  ⟨rfl, rfl, rfl⟩

/-- C2 amended: on a collection with pairwise-distinct ids,
`cleanupOldData` deletes exactly the records whose `createdAt` string
compares `<` to the cutoff ISO string (JS string order), and returns
their count.  A record with a *missing* `createdAt` is never deleted
(`undefined < cutoff` is false), but an unparseable *string* that
sorts before the cutoff — such as `""` — is deleted. -/
theorem C2_cleanup_deletes_by_string_compare (cutoffISO : String) (store : List DocRec)
    (hids : (store.map DocRec.id).Nodup) :
    cleanupOldData cutoffISO store =
      (store.countP (fun r => jsLtOptStr r.createdAt cutoffISO),
       store.filter (fun r => !(jsLtOptStr r.createdAt cutoffISO))) := by
  have h1 := cleanup_count_aux cutoffISO store 0 store
  have h2 := cleanup_store_aux cutoffISO store 0 store
  have h2' : (List.foldl (fun acc image =>
      if jsLtOptStr image.createdAt cutoffISO then (acc.1 + 1, images.delete acc.2 image.id)
      else acc) (0, store) store).2
      = store.filter (fun r => !(jsLtOptStr r.createdAt cutoffISO)) := by
    rw [h2]
    apply List.filter_congr
    intro x hx
    rcases hpx : jsLtOptStr x.createdAt cutoffISO with _ | _
    · have hany : store.any (fun r => jsLtOptStr r.createdAt cutoffISO && x.id == r.id)
          = false := by
        rw [List.any_eq_false]
        intro r hr hcontra
        have h12 := (Bool.and_eq_true _ _).mp hcontra
        have hxr : x.id = r.id := by simpa using h12.2
        have hxeq : x = r := List.inj_on_of_nodup_map hids hx hr hxr
        rw [← hxeq, hpx] at h12
        exact absurd h12.1 (by simp)
      simp [hany, hpx]
    · have hany : store.any (fun r => jsLtOptStr r.createdAt cutoffISO && x.id == r.id)
          = true :=
        List.any_eq_true.mpr ⟨x, hx, by simp [hpx]⟩
      simp [hany, hpx]
  unfold cleanupOldData
  rw [Prod.ext_iff]
  exact ⟨by rw [h1]; simp, h2'⟩

/-- Witness for C2 on the spec's scenario: records aged
{0, 6, 7, 8, 30} days against a 7-day cutoff — exactly the records
aged 8 and 30 days are removed (the record aged exactly 7 days equals
the cutoff, so it is not `<` and survives). -/
theorem C2_witness :
    cleanupOldData c2Cutoff c2Store =
      (2, [mkImg "d0" "2026-10-11T00:00:00.000Z" none 0,
           mkImg "d6" "2026-10-05T00:00:00.000Z" none 6,
           mkImg "d7" "2026-10-04T00:00:00.000Z" none 7]) := by
  rw [C2_cleanup_deletes_by_string_compare c2Cutoff c2Store (by decide)]
  rfl

/-! ## C1 -/

/-- C1 (bug evaluation): on eight records with pairwise-distinct
ascending `createdAt` stamps, `images.getRecent(5)` returns the five
*oldest* records (in strictly decreasing `createdAt` order), not the
five newest: `getAllItems` slices `limit` off the *ascending*
`createdAt` index before `getRecent` re-sorts the slice descending,
contradicting the function's own "Get recent images" contract. -/
theorem C1_getRecent_returns_oldest_not_newest :
    (images.getRecent 5 c1Store).map DocRec.id = ["a5", "a4", "a3", "a2", "a1"] ∧
    (images.getRecent 5 c1Store).map DocRec.id ≠ ["a8", "a7", "a6", "a5", "a4"] := by
  constructor
  · rfl
  · decide

/-! ## C6: key-value round-trip lemmas -/

theorem condSet_available (b : Bool) (st : LocalState) (k : String) (v : JVal) :
    (if b then (setStorageItem st k v).2 else st).available = st.available := by
  cases b <;> cases hA : st.available <;> simp [setStorageItem, hA]

theorem condSet_lookup_self (b : Bool) (st : LocalState) (k : String) (v : JVal)
    (hA : st.available = true) :
    (if b then (setStorageItem st k v).2 else st).items.lookup k
      = if b then some (some v) else st.items.lookup k := by
  cases b <;> simp [setStorageItem, hA, lookup_setEntry_self]

theorem condSet_lookup_other (b : Bool) (st : LocalState) (k k' : String) (v : JVal)
    (h : k' ≠ k) :
    (if b then (setStorageItem st k v).2 else st).items.lookup k' = st.items.lookup k' := by
  cases b <;> cases hA : st.available <;>
    simp [setStorageItem, hA, lookup_setEntry_other _ _ _ _ h]

theorem clearAllStorageData_available (st : LocalState) :
    ((clearAllStorageData st).2).available = st.available := by
  cases hA : st.available <;> simp [clearAllStorageData, hA]

theorem clearAllUserData_localStorage (faults : DbFaults) (st : StorageState) :
    ((clearAllUserData faults st).2).localStorage = (clearAllStorageData st.localStorage).2 := by
  obtain ⟨fi, fl, fp, fs⟩ := faults
  cases fi <;> cases fl <;> cases fp <;> simp [clearAllUserData]

/-- After `clearAllStorageData` on an available store, every settings
key reads as absent. -/
theorem cleared_lookup_none (st : LocalState) (hA : st.available = true) :
    ((clearAllStorageData st).2).items.lookup BRAND_KIT = none ∧
    ((clearAllStorageData st).2).items.lookup USER_INFO = none ∧
    ((clearAllStorageData st).2).items.lookup CAMPAIGN_VARIABLE = none ∧
    ((clearAllStorageData st).2).items.lookup APP_PREFERENCES = none ∧
    ((clearAllStorageData st).2).items.lookup RECENT_PROMPTS = none := by
  simp only [clearAllStorageData, hA, Bool.not_true, Bool.false_eq_true, if_false]
  refine ⟨?_, ?_, ?_, ?_, ?_⟩
  · rw [lookup_removeEntry_other _ _ _ (by decide), lookup_removeEntry_other _ _ _ (by decide),
      lookup_removeEntry_other _ _ _ (by decide), lookup_removeEntry_other _ _ _ (by decide),
      lookup_removeEntry_self]
  · rw [lookup_removeEntry_other _ _ _ (by decide), lookup_removeEntry_other _ _ _ (by decide),
      lookup_removeEntry_other _ _ _ (by decide), lookup_removeEntry_self]
  · rw [lookup_removeEntry_other _ _ _ (by decide), lookup_removeEntry_other _ _ _ (by decide),
      lookup_removeEntry_self]
  · rw [lookup_removeEntry_other _ _ _ (by decide), lookup_removeEntry_self]
  · rw [lookup_removeEntry_self]

/-! ## C6: import-loop lemmas -/

theorem importFold_components (faults : DbFaults) (now : String)
    (hf : faults.imageSaveFails = false) :
    ∀ (l : List DocRec) (acc : StorageState × List String),
      ((l.foldl (importStep faults now) acc).1).localStorage = acc.1.localStorage ∧
      ((l.foldl (importStep faults now) acc).1).images = saveLoop now l acc.1.images acc.2
  | [], acc => by simp [saveLoop]
  | r :: rs, acc => by
    obtain ⟨stA, gensA⟩ := acc
    cases gensA with
    | nil =>
      have ih := importFold_components faults now hf rs
        ({ stA with images := (images.save now "" (docRecToPutItem r) stA.images).2 }, [])
      simp only [List.foldl_cons, importStep, saveGeneratedImage, hf, Bool.false_eq_true,
        if_false] at ih ⊢
      exact ⟨ih.1, by rw [ih.2]; rfl⟩
    | cons g gs =>
      have ih := importFold_components faults now hf rs
        ({ stA with images := (images.save now g (docRecToPutItem r) stA.images).2 }, gs)
      simp only [List.foldl_cons, importStep, saveGeneratedImage, hf, Bool.false_eq_true,
        if_false] at ih ⊢
      exact ⟨ih.1, by rw [ih.2]; rfl⟩

theorem importUserData_components (faults : DbFaults) (now : String) (gens : List String)
    (data : Snapshot) (st : StorageState) (hf : faults.imageSaveFails = false) :
    ((importUserData faults now gens data st).2).localStorage
        = (importAllData data.settings st.localStorage).2 ∧
    ((importUserData faults now gens data st).2).images
        = saveLoop now data.images st.images gens := by
  have h := importFold_components faults now hf data.images
    ({ st with localStorage := (importAllData data.settings st.localStorage).2 }, gens)
  exact ⟨h.1, h.2⟩

/-- Re-saving a record of the stored shape (non-empty id, truthy
`createdAt`) writes it back unchanged except for the refreshed
`updatedAt` and the re-stamped `type: 'image'`. -/
theorem images_save_stored_rec (now g : String) (x : DocRec) (imgs : List DocRec)
    (hx : x.id ≠ "") (hc : jsTruthyOptStr x.createdAt = true) :
    images.save now g (docRecToPutItem x) imgs
      = (x.id, putRec imgs { x with updatedAt := some now, type := some "image" }) := by
  obtain ⟨xid, xca, xua, xp, xty, xpl⟩ := x
  cases xca with
  | none => simp [jsTruthyOptStr] at hc
  | some s =>
    have hs : (s == "") = false := by simpa [jsTruthyOptStr] using hc
    have hxb : (xid == "") = false := by simpa using hx
    simp [images.save, docRecToPutItem, setItem, hxb, hs]

theorem saveLoop_getItem_preserve (now : String) :
    ∀ (l : List DocRec) (imgs : List DocRec) (gens : List String) (a : String),
      (∀ x ∈ l, x.id ≠ a ∧ x.id ≠ "" ∧ jsTruthyOptStr x.createdAt = true) →
      getItem (saveLoop now l imgs gens) a = getItem imgs a
  | [], imgs, gens, a, _ => rfl
  | x :: rs, imgs, gens, a, h => by
    obtain ⟨hxa, hxe, hxc⟩ := h x (by simp)
    have hrest : ∀ y ∈ rs, y.id ≠ a ∧ y.id ≠ "" ∧ jsTruthyOptStr y.createdAt = true :=
      fun y hy => h y (by simp [hy])
    cases gens with
    | nil =>
      show getItem (saveLoop now rs (images.save now "" (docRecToPutItem x) imgs).2 []) a = _
      rw [saveLoop_getItem_preserve now rs _ [] a hrest,
        images_save_stored_rec now "" x imgs hxe hxc]
      exact getItem_putRec_other imgs _ a (Ne.symm hxa)
    | cons g gs =>
      show getItem (saveLoop now rs (images.save now g (docRecToPutItem x) imgs).2 gs) a = _
      rw [saveLoop_getItem_preserve now rs _ gs a hrest,
        images_save_stored_rec now g x imgs hxe hxc]
      exact getItem_putRec_other imgs _ a (Ne.symm hxa)

theorem saveLoop_getItem (now : String) :
    ∀ (l : List DocRec) (imgs : List DocRec) (gens : List String),
      ((l.map DocRec.id).Nodup) →
      (∀ x ∈ l, x.id ≠ "" ∧ jsTruthyOptStr x.createdAt = true) →
      ∀ r ∈ l, getItem (saveLoop now l imgs gens) r.id
        = some { r with updatedAt := some now, type := some "image" }
  | [], imgs, gens, _, _, r, hr => by simp at hr
  | x :: rs, imgs, gens, hnd, hp, r, hr => by
    have hx := hp x (by simp)
    have hcons : (x.id :: rs.map DocRec.id).Nodup := hnd
    have hnd' : ((rs.map DocRec.id)).Nodup := (List.nodup_cons.mp hcons).2
    have hxnotin : x.id ∉ rs.map DocRec.id := (List.nodup_cons.mp hcons).1
    rcases List.mem_cons.mp hr with hrx | hrs
    · subst hrx
      cases gens with
      | nil =>
        show getItem (saveLoop now rs (images.save now "" (docRecToPutItem r) imgs).2 []) r.id = _
        rw [saveLoop_getItem_preserve now rs _ [] r.id
          (fun y hy => ⟨fun hcon => hxnotin (hcon ▸ List.mem_map_of_mem DocRec.id hy),
            (hp y (by simp [hy])).1, (hp y (by simp [hy])).2⟩)]
        rw [images_save_stored_rec now "" r imgs hx.1 hx.2]
        exact getItem_putRec_self imgs _
      | cons g gs =>
        show getItem (saveLoop now rs (images.save now g (docRecToPutItem r) imgs).2 gs) r.id = _
        rw [saveLoop_getItem_preserve now rs _ gs r.id
          (fun y hy => ⟨fun hcon => hxnotin (hcon ▸ List.mem_map_of_mem DocRec.id hy),
            (hp y (by simp [hy])).1, (hp y (by simp [hy])).2⟩)]
        rw [images_save_stored_rec now g r imgs hx.1 hx.2]
        exact getItem_putRec_self imgs _
    · have hp' : ∀ y ∈ rs, y.id ≠ "" ∧ jsTruthyOptStr y.createdAt = true :=
        fun y hy => hp y (by simp [hy])
      cases gens with
      | nil =>
        show getItem (saveLoop now rs (images.save now "" (docRecToPutItem x) imgs).2 []) r.id = _
        exact saveLoop_getItem now rs _ [] hnd' hp' r hrs
      | cons g gs =>
        show getItem (saveLoop now rs (images.save now g (docRecToPutItem x) imgs).2 gs) r.id = _
        exact saveLoop_getItem now rs _ gs hnd' hp' r hrs

/-! ## C6: getRecent membership lemmas -/

theorem getRecent_subset (limit : Nat) (store : List DocRec) :
    ∀ r ∈ images.getRecent limit store, r ∈ store := by
  intro r hr
  unfold images.getRecent getAllItemsByCreatedAt at hr
  rw [List.Perm.mem_iff (List.perm_insertionSort _ _)] at hr
  have hr2 : r ∈ List.insertionSort createdLe (store.filter (fun x => x.createdAt.isSome)) := by
    by_cases hl : limit > 0
    · simp only [hl, if_true] at hr
      exact List.take_subset _ _ hr
    · simpa [hl] using hr
  rw [List.Perm.mem_iff (List.perm_insertionSort _ _)] at hr2
  exact List.mem_of_mem_filter hr2

theorem getRecent_nodup_ids (limit : Nat) (store : List DocRec)
    (h : (store.map DocRec.id).Nodup) :
    ((images.getRecent limit store).map DocRec.id).Nodup := by
  unfold images.getRecent getAllItemsByCreatedAt
  have h1 : ((store.filter (fun x => x.createdAt.isSome)).map DocRec.id).Nodup :=
    List.Nodup.sublist ((List.filter_sublist _).map _) h
  have h2 : ((List.insertionSort createdLe
      (store.filter (fun x => x.createdAt.isSome))).map DocRec.id).Nodup :=
    ((List.perm_insertionSort _ _).map _).nodup_iff.mpr h1
  by_cases hl : limit > 0
  · simp only [hl, if_true]
    exact ((List.perm_insertionSort _ _).map _).nodup_iff.mpr
      (List.Nodup.sublist ((List.take_sublist _ _).map _) h2)
  · simp only [hl, if_false]
    exact ((List.perm_insertionSort _ _).map _).nodup_iff.mpr h2

theorem getStorageItem_unavailable (st : LocalState) (k : String) (d : JVal)
    (h : st.available = false) : getStorageItem st k d = d := by
  simp [getStorageItem, h]

theorem importAllData_available (data : LocalExport) (ls : LocalState) :
    ((importAllData data ls).2).available = ls.available := by
  simp only [importAllData, brandKit.set, userInfo.set, campaignVariable.set, appPreferences.set]
  rw [condSet_available, condSet_available, condSet_available, condSet_available,
    condSet_available]

/-- After clearing every settings key, the import writes back exactly
the truthy categories; each settings key of the imported state holds
the truthy snapshot value or nothing. -/
theorem importAllData_lookup_of_cleared (data : LocalExport) (ls' : LocalState)
    (hA : ls'.available = true)
    (h1 : ls'.items.lookup BRAND_KIT = none)
    (h2 : ls'.items.lookup USER_INFO = none)
    (h3 : ls'.items.lookup CAMPAIGN_VARIABLE = none)
    (h4 : ls'.items.lookup APP_PREFERENCES = none)
    (h5 : ls'.items.lookup RECENT_PROMPTS = none) :
    ((importAllData data ls').2).items.lookup BRAND_KIT
        = (if jsTruthy data.brandKit then some (some data.brandKit) else none) ∧
    ((importAllData data ls').2).items.lookup USER_INFO
        = (if jsTruthy data.userInfo then some (some data.userInfo) else none) ∧
    ((importAllData data ls').2).items.lookup CAMPAIGN_VARIABLE
        = (if jsTruthy data.campaignVariable then some (some data.campaignVariable) else none) ∧
    ((importAllData data ls').2).items.lookup APP_PREFERENCES
        = (if jsTruthy data.appPreferences then some (some data.appPreferences) else none) ∧
    ((importAllData data ls').2).items.lookup RECENT_PROMPTS
        = (if jsTruthy data.recentPrompts then some (some data.recentPrompts) else none) := by
  simp only [importAllData, brandKit.set, userInfo.set, campaignVariable.set, appPreferences.set]
  refine ⟨?_, ?_, ?_, ?_, ?_⟩
  · rw [condSet_lookup_other _ _ _ _ _ (by decide), condSet_lookup_other _ _ _ _ _ (by decide),
      condSet_lookup_other _ _ _ _ _ (by decide), condSet_lookup_other _ _ _ _ _ (by decide),
      condSet_lookup_self _ _ _ _ hA, h1]
  · rw [condSet_lookup_other _ _ _ _ _ (by decide), condSet_lookup_other _ _ _ _ _ (by decide),
      condSet_lookup_other _ _ _ _ _ (by decide),
      condSet_lookup_self _ _ _ _ (by rw [condSet_available]; exact hA),
      condSet_lookup_other _ _ _ _ _ (by decide), h2]
  · rw [condSet_lookup_other _ _ _ _ _ (by decide), condSet_lookup_other _ _ _ _ _ (by decide),
      condSet_lookup_self _ _ _ _ (by rw [condSet_available, condSet_available]; exact hA),
      condSet_lookup_other _ _ _ _ _ (by decide), condSet_lookup_other _ _ _ _ _ (by decide),
      h3]
  · rw [condSet_lookup_other _ _ _ _ _ (by decide),
      condSet_lookup_self _ _ _ _
        (by rw [condSet_available, condSet_available, condSet_available]; exact hA),
      condSet_lookup_other _ _ _ _ _ (by decide), condSet_lookup_other _ _ _ _ _ (by decide),
      condSet_lookup_other _ _ _ _ _ (by decide), h4]
  · rw [condSet_lookup_self _ _ _ _
        (by rw [condSet_available, condSet_available, condSet_available, condSet_available]
            exact hA),
      condSet_lookup_other _ _ _ _ _ (by decide), condSet_lookup_other _ _ _ _ _ (by decide),
      condSet_lookup_other _ _ _ _ _ (by decide), condSet_lookup_other _ _ _ _ _ (by decide),
      h5]

theorem getStorageItem_lookup_some (st : LocalState) (k : String) (d v : JVal)
    (hA : st.available = true) (h : st.items.lookup k = some (some v)) :
    getStorageItem st k d = v := by
  simp [getStorageItem, hA, h]

theorem getStorageItem_lookup_none (st : LocalState) (k : String) (d : JVal)
    (h : st.items.lookup k = none) : getStorageItem st k d = d := by
  cases hA : st.available <;> simp [getStorageItem, hA, h]

/-- C6 amended: the export/clear/import round trip restores every
settings category whose exported value is truthy or equal to the
category's documented default (a falsy non-default stored value such
as JSON `null` is skipped by the import's truthiness test), and
re-saves every exported content record so that it is present
afterwards with all fields intact except `updatedAt`, which the save
path refreshes to the import time (and `type`, re-stamped `'image'`).
Hypotheses on the collection state what the save path itself
guarantees: pairwise-distinct non-empty ids and truthy `createdAt`. -/
theorem C6_roundtrip_restores (faults : DbFaults) (tExp tImp : String) (gens : List String)
    (st : StorageState)
    (hsave : faults.imageSaveFails = false)
    (hbk : jsTruthy (brandKit.get st.localStorage) = true ∨
      brandKit.get st.localStorage = brandKitDefault)
    (hui : jsTruthy (userInfo.get st.localStorage) = true ∨
      userInfo.get st.localStorage = userInfoDefault)
    (hcv : jsTruthy (campaignVariable.get st.localStorage) = true ∨
      campaignVariable.get st.localStorage = jstr "")
    (hap : jsTruthy (appPreferences.get st.localStorage) = true ∨
      appPreferences.get st.localStorage = appPreferencesDefault)
    (hrp : jsTruthy (recentPrompts.get st.localStorage) = true ∨
      recentPrompts.get st.localStorage = jarr [])
    (hids : (st.images.map DocRec.id).Nodup)
    (hprops : ∀ r ∈ st.images, r.id ≠ "" ∧ jsTruthyOptStr r.createdAt = true) :
    brandKit.get (exportClearImportRun faults tExp tImp gens st).localStorage
        = brandKit.get st.localStorage ∧
    userInfo.get (exportClearImportRun faults tExp tImp gens st).localStorage
        = userInfo.get st.localStorage ∧
    campaignVariable.get (exportClearImportRun faults tExp tImp gens st).localStorage
        = campaignVariable.get st.localStorage ∧
    appPreferences.get (exportClearImportRun faults tExp tImp gens st).localStorage
        = appPreferences.get st.localStorage ∧
    recentPrompts.get (exportClearImportRun faults tExp tImp gens st).localStorage
        = recentPrompts.get st.localStorage ∧
    (∀ r ∈ (exportAllUserData tExp st).images,
      getItem (exportClearImportRun faults tExp tImp gens st).images r.id
        = some { r with updatedAt := some tImp, type := some "image" }) := by
  have hloc : (exportClearImportRun faults tExp tImp gens st).localStorage
      = (importAllData (exportAllData tExp st.localStorage)
          (clearAllStorageData st.localStorage).2).2 := by
    show ((importUserData faults tImp gens (exportAllUserData tExp st)
      (clearAllUserData faults st).2).2).localStorage = _
    rw [(importUserData_components faults tImp gens _ _ hsave).1, clearAllUserData_localStorage]
    rfl
  have himgres : ∀ r ∈ (exportAllUserData tExp st).images,
      getItem (exportClearImportRun faults tExp tImp gens st).images r.id
        = some { r with updatedAt := some tImp, type := some "image" } := by
    intro r hr
    have himg : (exportClearImportRun faults tExp tImp gens st).images
        = saveLoop tImp (exportAllUserData tExp st).images
            (clearAllUserData faults st).2.images gens :=
      (importUserData_components faults tImp gens _ _ hsave).2
    rw [himg]
    exact saveLoop_getItem tImp _ _ gens
      (getRecent_nodup_ids 100 st.images hids)
      (fun x hx => hprops x (getRecent_subset 100 st.images x hx)) r hr
  rcases hAv : st.localStorage.available with _ | _
  · have hfa : (exportClearImportRun faults tExp tImp gens st).localStorage.available
        = false := by
      rw [hloc, importAllData_available, clearAllStorageData_available]
      exact hAv
    exact ⟨by rw [brandKit.get, brandKit.get, getStorageItem_unavailable _ _ _ hfa,
        getStorageItem_unavailable _ _ _ hAv],
      by rw [userInfo.get, userInfo.get, getStorageItem_unavailable _ _ _ hfa,
        getStorageItem_unavailable _ _ _ hAv],
      by rw [campaignVariable.get, campaignVariable.get, getStorageItem_unavailable _ _ _ hfa,
        getStorageItem_unavailable _ _ _ hAv],
      by rw [appPreferences.get, appPreferences.get, getStorageItem_unavailable _ _ _ hfa,
        getStorageItem_unavailable _ _ _ hAv],
      by rw [recentPrompts.get, recentPrompts.get, getStorageItem_unavailable _ _ _ hfa,
        getStorageItem_unavailable _ _ _ hAv],
      himgres⟩
  · have hAcl : ((clearAllStorageData st.localStorage).2).available = true := by
      rw [clearAllStorageData_available]
      exact hAv
    have hAimp : ((importAllData (exportAllData tExp st.localStorage)
        (clearAllStorageData st.localStorage).2).2).available = true := by
      rw [importAllData_available]
      exact hAcl
    obtain ⟨n1, n2, n3, n4, n5⟩ := cleared_lookup_none st.localStorage hAv
    obtain ⟨l1, l2, l3, l4, l5⟩ := importAllData_lookup_of_cleared
      (exportAllData tExp st.localStorage) _ hAcl n1 n2 n3 n4 n5
    rw [show (exportAllData tExp st.localStorage).brandKit = brandKit.get st.localStorage
      from rfl] at l1
    rw [show (exportAllData tExp st.localStorage).userInfo = userInfo.get st.localStorage
      from rfl] at l2
    rw [show (exportAllData tExp st.localStorage).campaignVariable
      = campaignVariable.get st.localStorage from rfl] at l3
    rw [show (exportAllData tExp st.localStorage).appPreferences
      = appPreferences.get st.localStorage from rfl] at l4
    rw [show (exportAllData tExp st.localStorage).recentPrompts
      = recentPrompts.get st.localStorage from rfl] at l5
    refine ⟨?_, ?_, ?_, ?_, ?_, himgres⟩
    · rw [brandKit.get, hloc]
      by_cases hv : jsTruthy (brandKit.get st.localStorage) = true
      · rw [hv, if_pos rfl] at l1
        exact getStorageItem_lookup_some _ _ _ _ hAimp l1
      · have hvF : jsTruthy (brandKit.get st.localStorage) = false := by simpa using hv
        rw [hvF] at l1
        simp only [Bool.false_eq_true, if_false] at l1
        rw [getStorageItem_lookup_none _ _ _ l1, hbk.resolve_left hv]
    · rw [userInfo.get, hloc]
      by_cases hv : jsTruthy (userInfo.get st.localStorage) = true
      · rw [hv, if_pos rfl] at l2
        exact getStorageItem_lookup_some _ _ _ _ hAimp l2
      · have hvF : jsTruthy (userInfo.get st.localStorage) = false := by simpa using hv
        rw [hvF] at l2
        simp only [Bool.false_eq_true, if_false] at l2
        rw [getStorageItem_lookup_none _ _ _ l2, hui.resolve_left hv]
    · rw [campaignVariable.get, hloc]
      by_cases hv : jsTruthy (campaignVariable.get st.localStorage) = true
      · rw [hv, if_pos rfl] at l3
        exact getStorageItem_lookup_some _ _ _ _ hAimp l3
      · have hvF : jsTruthy (campaignVariable.get st.localStorage) = false := by simpa using hv
        rw [hvF] at l3
        simp only [Bool.false_eq_true, if_false] at l3
        rw [getStorageItem_lookup_none _ _ _ l3, hcv.resolve_left hv]
    · rw [appPreferences.get, hloc]
      by_cases hv : jsTruthy (appPreferences.get st.localStorage) = true
      · rw [hv, if_pos rfl] at l4
        exact getStorageItem_lookup_some _ _ _ _ hAimp l4
      · have hvF : jsTruthy (appPreferences.get st.localStorage) = false := by simpa using hv
        rw [hvF] at l4
        simp only [Bool.false_eq_true, if_false] at l4
        rw [getStorageItem_lookup_none _ _ _ l4, hap.resolve_left hv]
    · rw [recentPrompts.get, hloc]
      by_cases hv : jsTruthy (recentPrompts.get st.localStorage) = true
      · rw [hv, if_pos rfl] at l5
        exact getStorageItem_lookup_some _ _ _ _ hAimp l5
      · have hvF : jsTruthy (recentPrompts.get st.localStorage) = false := by simpa using hv
        rw [hvF] at l5
        simp only [Bool.false_eq_true, if_false] at l5
        rw [getStorageItem_lookup_none _ _ _ l5, hrp.resolve_left hv]

/-- C6 counterexample: a brand kit stored as JSON `null` deserializes
successfully, so `brandKit.get` returns `jnull` before the clear; the
exported `null` is falsy, the import skips it, and the post-import
load yields the default instead of the pre-clear value.  Moreover the
re-saved image record is restored with a refreshed `updatedAt`, not
byte-for-byte. -/
theorem C6_counterexample :
    brandKit.get c6State.localStorage = jnull ∧
    brandKit.get (exportClearImportRun noFaults c6TExp c6TImp [] c6State).localStorage
      = brandKitDefault ∧
    jnull ≠ brandKitDefault ∧
    c6Img ∈ (exportAllUserData c6TExp c6State).images ∧
    getItem (exportClearImportRun noFaults c6TExp c6TImp [] c6State).images "i1"
      = some { c6Img with updatedAt := some c6TImp } ∧
    c6Img.updatedAt ≠ some c6TImp :=
  ⟨rfl, rfl, fun h => JVal.noConfusion h, by decide, rfl, by decide⟩

/-- Witness for C6 at a concrete state with a truthy stored brand kit
and one stored image. -/
theorem C6_witness :
    brandKit.get (exportClearImportRun noFaults c6TExp c6TImp [] c6GoodState).localStorage
        = brandKit.get c6GoodState.localStorage ∧
    userInfo.get (exportClearImportRun noFaults c6TExp c6TImp [] c6GoodState).localStorage
        = userInfo.get c6GoodState.localStorage ∧
    campaignVariable.get
        (exportClearImportRun noFaults c6TExp c6TImp [] c6GoodState).localStorage
        = campaignVariable.get c6GoodState.localStorage ∧
    appPreferences.get (exportClearImportRun noFaults c6TExp c6TImp [] c6GoodState).localStorage
        = appPreferences.get c6GoodState.localStorage ∧
    recentPrompts.get (exportClearImportRun noFaults c6TExp c6TImp [] c6GoodState).localStorage
        = recentPrompts.get c6GoodState.localStorage ∧
    (∀ r ∈ (exportAllUserData c6TExp c6GoodState).images,
      getItem (exportClearImportRun noFaults c6TExp c6TImp [] c6GoodState).images r.id
        = some { r with updatedAt := some c6TImp, type := some "image" }) :=
  C6_roundtrip_restores noFaults c6TExp c6TImp [] c6GoodState rfl
    (Or.inl rfl) (Or.inr rfl) (Or.inr rfl) (Or.inr rfl) (Or.inr rfl)
    (by decide) (by decide)

/-! ## C8: decimal rendering and id injectivity -/

theorem digitChar_ne_dash : ∀ (m : Nat), Nat.digitChar m ≠ '-'
  | 0 | 1 | 2 | 3 | 4 | 5 | 6 | 7 | 8 | 9
  | 10 | 11 | 12 | 13 | 14 | 15 => by decide
  | (n + 16) => by
    show '*' ≠ '-'
    decide

theorem natChars_small {n : Nat} (h : n < 10) : natChars n = [Nat.digitChar n] := by
  rw [natChars]
  exact dif_pos h

theorem natChars_large {n : Nat} (h : ¬ n < 10) :
    natChars n = natChars (n / 10) ++ [Nat.digitChar (n % 10)] := by
  rw [natChars]
  exact dif_neg h

theorem natChars_ne_nil (n : Nat) : natChars n ≠ [] := by
  by_cases h : n < 10
  · rw [natChars_small h]
    simp
  · rw [natChars_large h]
    simp

theorem toDigitsCore_eq_natChars :
    ∀ (fuel n : Nat) (ds : List Char), n < fuel →
      Nat.toDigitsCore 10 fuel n ds = natChars n ++ ds
  | 0, n, ds, h => absurd h (Nat.not_lt_zero n)
  | fuel + 1, n, ds, h => by
    simp only [Nat.toDigitsCore]
    by_cases h10 : n / 10 = 0
    · have hn : n < 10 := (Nat.div_eq_zero_iff (by omega)).mp h10
      rw [if_pos h10, natChars_small hn, Nat.mod_eq_of_lt hn]
      rfl
    · have hge : 10 ≤ n := by
        by_contra hc
        push_neg at hc
        exact h10 ((Nat.div_eq_zero_iff (by omega)).mpr hc)
      have hlt : n / 10 < fuel := by
        have h1 : n / 10 < n := Nat.div_lt_self (by omega) (by omega)
        omega
      rw [if_neg h10, toDigitsCore_eq_natChars fuel (n / 10) _ hlt,
        natChars_large (by omega : ¬ n < 10), List.append_assoc]
      rfl

theorem repr_data_eq_natChars (n : Nat) : (Nat.repr n).data = natChars n := by
  show (Nat.toDigits 10 n).asString.data = natChars n
  rw [Nat.toDigits, toDigitsCore_eq_natChars (n + 1) n [] (Nat.lt_succ_self n),
    List.append_nil]
  rfl

theorem digitChar_inj_small : ∀ (a b : Fin 10), Nat.digitChar a = Nat.digitChar b → a = b := by
  decide

theorem natChars_inj (a : Nat) : ∀ (b : Nat), natChars a = natChars b → a = b := by
  induction a using Nat.strong_induction_on with
  | _ a ih =>
    intro b hab
    by_cases ha : a < 10 <;> by_cases hb : b < 10
    · rw [natChars_small ha, natChars_small hb] at hab
      simp only [List.cons.injEq, and_true] at hab
      have := digitChar_inj_small ⟨a, ha⟩ ⟨b, hb⟩ hab
      exact congrArg Fin.val this
    · rw [natChars_small ha, natChars_large hb] at hab
      have hlen := congrArg List.length hab
      simp only [List.length_cons, List.length_nil, List.length_append] at hlen
      have : (natChars (b / 10)).length = 0 := by omega
      exact absurd (List.length_eq_zero.mp this) (natChars_ne_nil _)
    · rw [natChars_large ha, natChars_small hb] at hab
      have hlen := congrArg List.length hab
      simp only [List.length_cons, List.length_nil, List.length_append] at hlen
      have : (natChars (a / 10)).length = 0 := by omega
      exact absurd (List.length_eq_zero.mp this) (natChars_ne_nil _)
    · rw [natChars_large ha, natChars_large hb] at hab
      have hrev := congrArg List.reverse hab
      simp only [List.reverse_append, List.reverse_cons, List.reverse_nil, List.nil_append,
        List.singleton_append, List.cons.injEq] at hrev
      have hmod : a % 10 = b % 10 := by
        have := digitChar_inj_small ⟨a % 10, Nat.mod_lt _ (by omega)⟩
          ⟨b % 10, Nat.mod_lt _ (by omega)⟩ hrev.1
        exact congrArg Fin.val this
      have htails : natChars (a / 10) = natChars (b / 10) :=
        List.reverse_injective hrev.2
      have hdivlt : a / 10 < a := Nat.div_lt_self (by omega) (by omega)
      have hdiv : a / 10 = b / 10 := ih (a / 10) hdivlt (b / 10) htails
      omega

theorem natChars_no_dash (n : Nat) : '-' ∉ natChars n := by
  induction n using Nat.strong_induction_on with
  | _ n ih =>
    by_cases hn : n < 10
    · rw [natChars_small hn]
      intro hm
      simp only [List.mem_singleton] at hm
      exact digitChar_ne_dash n hm.symm
    · rw [natChars_large hn]
      intro hm
      rcases List.mem_append.mp hm with hm1 | hm2
      · exact ih (n / 10) (Nat.div_lt_self (by omega) (by omega)) hm1
      · simp only [List.mem_singleton] at hm2
        exact digitChar_ne_dash (n % 10) hm2.symm

theorem append_dash_inj :
    ∀ (a1 b1 a2 b2 : List Char), '-' ∉ a1 → '-' ∉ a2 →
      a1 ++ '-' :: b1 = a2 ++ '-' :: b2 → a1 = a2 ∧ b1 = b2
  | [], b1, [], b2, _, _, h => by
    simp only [List.nil_append, List.cons.injEq, true_and] at h
    exact ⟨rfl, h⟩
  | [], b1, c :: a2, b2, h1, h2, h => by
    simp only [List.nil_append, List.cons_append, List.cons.injEq] at h
    exact absurd (h.1 ▸ List.mem_cons_self c a2) h2
  | c :: a1, b1, [], b2, h1, h2, h => by
    simp only [List.nil_append, List.cons_append, List.cons.injEq] at h
    exact absurd (h.1.symm ▸ List.mem_cons_self c a1) h1
  | c1 :: a1, b1, c2 :: a2, b2, h1, h2, h => by
    simp only [List.cons_append, List.cons.injEq] at h
    have hrec := append_dash_inj a1 b1 a2 b2
      (fun hm => h1 (List.mem_cons_of_mem c1 hm))
      (fun hm => h2 (List.mem_cons_of_mem c2 hm)) h.2
    exact ⟨by rw [h.1, hrec.1], hrec.2⟩

theorem noDash_not_mem (s : String) (h : noDash s = true) : '-' ∉ s.data := by
  intro hm
  have := List.all_eq_true.mp h '-' hm
  simp at this

theorem generateId_inj (t1 t2 : Nat) (s1 s2 : String) (h1 : noDash s1 = true)
    (h2 : noDash s2 = true) (h : generateId t1 s1 = generateId t2 s2) :
    t1 = t2 ∧ s1 = s2 := by
  have hd : (Nat.repr t1).data ++ '-' :: s1.data = (Nat.repr t2).data ++ '-' :: s2.data := by
    have hdata := congrArg String.data h
    simpa [generateId, String.data_append, List.append_assoc] using hdata
  have hnd1 : '-' ∉ (Nat.repr t1).data := by
    rw [repr_data_eq_natChars]
    exact natChars_no_dash t1
  have hnd2 : '-' ∉ (Nat.repr t2).data := by
    rw [repr_data_eq_natChars]
    exact natChars_no_dash t2
  have hsplit := append_dash_inj _ _ _ _ hnd1 hnd2 hd
  constructor
  · apply natChars_inj t1 t2
    rw [← repr_data_eq_natChars, ← repr_data_eq_natChars]
    exact hsplit.1
  · exact String.ext hsplit.2

/-- C8 counterexample: two puts to the images collection without an
explicit id, issued in the same `Date.now()` millisecond and drawing
the same random base-36 suffix, return the *same* id — the returned
ids of a put sequence are not always pairwise distinct. -/
theorem C8_counterexample :
    (setItem "2024-01-01T00:00:00.000Z" (generateId 1700000000000 "4fzyo82mv") c8Item []).1
      = (setItem "2024-01-01T00:00:00.001Z" (generateId 1700000000000 "4fzyo82mv") c8Item
          (setItem "2024-01-01T00:00:00.000Z" (generateId 1700000000000 "4fzyo82mv")
            c8Item []).2).1 :=
  rfl

/-- C8 amended: the generated ids of a put sequence are pairwise
distinct provided no two calls observe both the same `Date.now()`
reading and the same random suffix (the suffixes, being base-36, never
contain the `'-'` separator). -/
theorem C8_generated_ids_distinct (calls : List (Nat × String))
    (hsuf : ∀ c ∈ calls, noDash c.2 = true) (hd : calls.Nodup) :
    (calls.map (fun c => generateId c.1 c.2)).Nodup := by
  refine List.Nodup.map_on ?_ hd
  intro x hx y hy hfxy
  have hxy := generateId_inj x.1 y.1 x.2 y.2 (hsuf x hx) (hsuf y hy) hfxy
  exact Prod.ext hxy.1 hxy.2

/-- Witness for C8: two calls in distinct milliseconds with equal
suffixes produce distinct ids. -/
theorem C8_witness :
    ((([(1, "a"), (2, "a")] : List (Nat × String)).map
      (fun c => generateId c.1 c.2)).Nodup) :=
  C8_generated_ids_distinct [(1, "a"), (2, "a")] (by decide) (by decide)
